import Mathlib

/-!
# Verification of the `neust` authentication client core

Shallow embedding of the core of the `neust` repository (an authentication
client for a CAS-style university login portal with a WebVPN proxy) and
proofs about it.

Rust strings are UTF-8 byte sequences; every operation the embedded code
performs on them (`len`, slicing, `find`, `split`, `strip_prefix`) is a
byte-level operation, so strings handled by `webvpn.rs`, `session.rs` and
`auth/credential.rs` are modelled as `List Nat` of byte values.  The HTML
classifier in `status.rs` works through the `regex` crate whose `.` metachar
matches Unicode scalar values, so HTML documents there are modelled as
`List Char`.
-/

deriving instance DecidableEq for Except

namespace Neust

/-! ## UTF-8 byte strings -/

/-- UTF-8 encoding of one Unicode scalar value, as byte values. -/
def utf8Bytes (c : Char) : List Nat :=
  let n := c.toNat
  if n < 128 then [n]
  else if n < 2048 then [192 + n / 64, 128 + n % 64]
  else if n < 65536 then [224 + n / 4096, 128 + n / 64 % 64, 128 + n % 64]
  else [240 + n / 262144, 128 + n / 4096 % 64, 128 + n / 64 % 64, 128 + n % 64]

/-- The UTF-8 bytes of a string literal, the representation used for all
Rust `&str`/`String` values handled at byte level. -/
def strBytes (s : String) : List Nat :=
  s.data.flatMap utf8Bytes

/-! ## AES-128 (the `aes` crate), as used by `webvpn.rs`

`webvpn.rs` encrypts hostnames with `cfb_mode::Encryptor<Aes128>`.  The
block cipher is embedded below: the standard AES S-box table, the AES-128
key schedule and the 10-round block encryption, all on byte values. -/

/-- The AES forward S-box (FIPS-197), 256 byte values. -/
def SBOX : List Nat := [
  99, 124, 119, 123, 242, 107, 111, 197, 48, 1, 103, 43, 254, 215, 171, 118,
  202, 130, 201, 125, 250, 89, 71, 240, 173, 212, 162, 175, 156, 164, 114, 192,
  183, 253, 147, 38, 54, 63, 247, 204, 52, 165, 229, 241, 113, 216, 49, 21,
  4, 199, 35, 195, 24, 150, 5, 154, 7, 18, 128, 226, 235, 39, 178, 117,
  9, 131, 44, 26, 27, 110, 90, 160, 82, 59, 214, 179, 41, 227, 47, 132,
  83, 209, 0, 237, 32, 252, 177, 91, 106, 203, 190, 57, 74, 76, 88, 207,
  208, 239, 170, 251, 67, 77, 51, 133, 69, 249, 2, 127, 80, 60, 159, 168,
  81, 163, 64, 143, 146, 157, 56, 245, 188, 182, 218, 33, 16, 255, 243, 210,
  205, 12, 19, 236, 95, 151, 68, 23, 196, 167, 126, 61, 100, 93, 25, 115,
  96, 129, 79, 220, 34, 42, 144, 136, 70, 238, 184, 20, 222, 94, 11, 219,
  224, 50, 58, 10, 73, 6, 36, 92, 194, 211, 172, 98, 145, 149, 228, 121,
  231, 200, 55, 109, 141, 213, 78, 169, 108, 86, 244, 234, 101, 122, 174, 8,
  186, 120, 37, 46, 28, 166, 180, 198, 232, 221, 116, 31, 75, 189, 139, 138,
  112, 62, 181, 102, 72, 3, 246, 14, 97, 53, 87, 185, 134, 193, 29, 158,
  225, 248, 152, 17, 105, 217, 142, 148, 155, 30, 135, 233, 206, 85, 40, 223,
  140, 161, 137, 13, 191, 230, 66, 104, 65, 153, 45, 15, 176, 84, 187, 22]

/-- S-box substitution of one byte. -/
def sbox (b : Nat) : Nat := SBOX.getD (b % 256) 0

/-- AES key-schedule round constants for AES-128. -/
def RCON : List Nat := [1, 2, 4, 8, 16, 32, 64, 128, 27, 54]

/-- Byte-wise XOR of two equal-length byte lists. -/
def xorBytes (a b : List Nat) : List Nat := List.zipWith Nat.xor a b

/-- One AES-128 key-schedule round: from a 16-byte round key to the next. -/
def ksRound (rc : Nat) (prev : List Nat) : List Nat :=
  let w0 := prev.take 4
  let w1 := (prev.drop 4).take 4
  let w2 := (prev.drop 8).take 4
  let w3 := prev.drop 12
  let rot := w3.drop 1 ++ w3.take 1
  let t := xorBytes (rot.map sbox) [rc, 0, 0, 0]
  let n0 := xorBytes w0 t
  let n1 := xorBytes w1 n0
  let n2 := xorBytes w2 n1
  let n3 := xorBytes w3 n2
  n0 ++ n1 ++ n2 ++ n3

/-- The 11 AES-128 round keys derived from a 16-byte key. -/
def roundKeys (key : List Nat) : List (List Nat) :=
  (RCON.foldl (fun p rc => (p.1 ++ [ksRound rc p.2], ksRound rc p.2)) ([key], key)).1

/-- ShiftRows on the flat 16-byte state (standard column-major byte order). -/
def shiftRows (s : List Nat) : List Nat :=
  [0, 5, 10, 15, 4, 9, 14, 3, 8, 13, 2, 7, 12, 1, 6, 11].map (fun i => s.getD i 0)

/-- Multiplication by x in GF(2^8) with the AES reduction polynomial. -/
def xtime (a : Nat) : Nat := Nat.xor (2 * a % 256) (if 128 ≤ a then 27 else 0)

/-- MixColumns on one 4-byte column. -/
def mixColumn (col : List Nat) : List Nat :=
  match col with
  | [a0, a1, a2, a3] =>
    [xtime a0 ^^^ (xtime a1 ^^^ a1) ^^^ a2 ^^^ a3,
     a0 ^^^ xtime a1 ^^^ (xtime a2 ^^^ a2) ^^^ a3,
     a0 ^^^ a1 ^^^ xtime a2 ^^^ (xtime a3 ^^^ a3),
     (xtime a0 ^^^ a0) ^^^ a1 ^^^ a2 ^^^ xtime a3]
  | l => l

/-- MixColumns on the flat 16-byte state. -/
def mixColumns (s : List Nat) : List Nat :=
  mixColumn (s.take 4) ++ mixColumn ((s.drop 4).take 4)
    ++ mixColumn ((s.drop 8).take 4) ++ mixColumn (s.drop 12)

/-- AES-128 encryption of one 16-byte block. -/
def aesEncryptBlock (key block : List Nat) : List Nat :=
  let rks := roundKeys key
  let s0 := xorBytes block (rks.getD 0 [])
  let smid := (List.range 9).foldl
    (fun s r => xorBytes (mixColumns (shiftRows (s.map sbox))) (rks.getD (r + 1) [])) s0
  xorBytes (shiftRows (smid.map sbox)) (rks.getD 10 [])

/-- CFB-mode encryption (the `cfb_mode` crate, full-block feedback):
each 16-byte chunk of plaintext is XORed with the block encryption of the
previous ciphertext block (initially the IV); a final partial chunk is XORed
with the leading keystream bytes (`zipWith` truncates). -/
def cfbEncryptAux (key : List Nat) : Nat → List Nat → List Nat → List Nat
  | 0, _, _ => []
  | fuel + 1, iv, pt =>
    match pt with
    | [] => []
    | b :: rest =>
      let ct := List.zipWith Nat.xor ((b :: rest).take 16) (aesEncryptBlock key iv)
      ct ++ cfbEncryptAux key fuel ct (rest.drop 15)

/-- CFB-mode encryption.  The fuel `pt.length` bounds the number of 16-byte
steps (each step consumes at least one plaintext byte), making the
definition structurally recursive and kernel-reducible. -/
def cfbEncrypt (key iv pt : List Nat) : List Nat :=
  cfbEncryptAux key pt.length iv pt

/-! ## `webvpn.rs`: `encrypt_url` -/

/-- The fixed key of `webvpn.rs`: `b"wrdvpnisthebest!"`, also used as IV. -/
def AES_KEY : List Nat := strBytes "wrdvpnisthebest!"

/-- Lowercase hex character (as a byte) of a nibble, as `hex::encode` emits. -/
def hexDigit (n : Nat) : Nat := if n < 10 then 48 + n else 87 + n

/-- `hex::encode`: two lowercase hex characters per byte. -/
def hexEncode (bs : List Nat) : List Nat :=
  bs.flatMap (fun b => [hexDigit (b / 16 % 16), hexDigit (b % 16)])

/-- `webvpn.rs::encrypt`: hex of the fixed key followed by hex of the
AES-128-CFB ciphertext of the plaintext, with the key used as both key
and IV. -/
def encrypt (plaintext : List Nat) : List Nat :=
  hexEncode AES_KEY ++ hexEncode (cfbEncrypt AES_KEY AES_KEY plaintext)

/-- The scheme-stripping match at the top of `encrypt_url`: returns the
scheme string and the remainder of the URL.  `strip_prefix("https://")`
sets scheme `https`; otherwise `http://` or `//` is stripped (if present)
and the scheme is `http`. -/
def stripSchemeUrl (url : List Nat) : List Nat × List Nat :=
  if (strBytes "https://").isPrefixOf url then
    (strBytes "https", url.drop 8)
  else if (strBytes "http://").isPrefixOf url then
    (strBytes "http", url.drop 7)
  else if (strBytes "//").isPrefixOf url then
    (strBytes "http", url.drop 2)
  else
    (strBytes "http", url)

/-- The hostname/port split of `encrypt_url`: split the pre-`?` part on
`:`; when there is more than one segment, the port is the second segment up
to the next `/`, and the `:port` substring is cut out of the URL by byte
index, exactly as the Rust slicing
`format!("{}{}", &url[..hostname_len], &url[hostname_len + port.len() + 1..])`. -/
def hostPortSplit (url : List Nat) : List Nat × Option (List Nat) :=
  let segments := (url.takeWhile (fun b => b ≠ 63)).splitOn 58
  match segments with
  | s0 :: s1 :: _ =>
    let hostname_len := s0.length
    let port := s1.takeWhile (fun b => b ≠ 47)
    (url.take hostname_len ++ url.drop (hostname_len + port.length + 1), some port)
  | _ => (url, none)

/-- `str::find('/')`: the byte index of the first `/`, if any. -/
def findSlash (l : List Nat) : Option Nat :=
  let i := (l.takeWhile (fun b => b ≠ 47)).length
  if i < l.length then some i else none

/-- The encryption step of `encrypt_url`: encrypt the part before the first
`/` (the hostname) and keep the rest verbatim; with no `/`, encrypt the
whole string. -/
def encryptHost (url : List Nat) : List Nat :=
  match findSlash url with
  | some index => encrypt (url.take index) ++ url.drop index
  | none => encrypt url

/-- `webvpn.rs::encrypt_url` on UTF-8 bytes. -/
def encrypt_url (url : List Nat) : List Nat :=
  let sv := stripSchemeUrl url
  let hp := hostPortSplit sv.2
  let encrypted_url := encryptHost hp.1
  match hp.2 with
  | some port =>
    strBytes "https://webvpn.neu.edu.cn/" ++ sv.1 ++ [45] ++ port ++ [47] ++ encrypted_url
  | none =>
    strBytes "https://webvpn.neu.edu.cn/" ++ sv.1 ++ [47] ++ encrypted_url

/-! ## Helper lemmas about `takeWhile`/`dropWhile` splits -/

theorem take_length_takeWhile (p : Nat → Bool) (l : List Nat) :
    l.take (l.takeWhile p).length = l.takeWhile p := by
  induction l with
  | nil => rfl
  | cons a t ih =>
    by_cases h : p a = true
    · simp [List.takeWhile_cons, h, ih]
    · simp [List.takeWhile_cons, h]

theorem drop_length_takeWhile (p : Nat → Bool) (l : List Nat) :
    l.drop (l.takeWhile p).length = l.dropWhile p := by
  induction l with
  | nil => rfl
  | cons a t ih =>
    by_cases h : p a = true
    · simp [List.takeWhile_cons, List.dropWhile_cons, h, ih]
    · simp [List.takeWhile_cons, List.dropWhile_cons, h]

theorem dropWhile_head_not (p : Nat → Bool) (l : List Nat) (b : Nat) (t : List Nat)
    (h : l.dropWhile p = b :: t) : p b = false := by
  induction l with
  | nil => simp at h
  | cons a t' ih =>
    by_cases hpa : p a = true
    · rw [List.dropWhile_cons_of_pos hpa] at h
      exact ih h
    · rw [List.dropWhile_cons_of_neg hpa] at h
      cases h
      exact Bool.not_eq_true _ ▸ (by simpa using hpa)

/-- `encryptHost` always splits its argument at the first `/`: the part
before it (the whole string when there is no `/`) is encrypted and the
remainder is appended verbatim. -/
theorem encryptHost_eq (l : List Nat) :
    encryptHost l =
      encrypt (l.takeWhile (fun b => b ≠ 47)) ++ l.dropWhile (fun b => b ≠ 47) := by
  unfold encryptHost findSlash
  by_cases h : (l.takeWhile (fun b => b ≠ 47)).length < l.length
  · simp only [h, if_pos]
    rw [take_length_takeWhile, drop_length_takeWhile]
  · simp only [h, if_neg, not_false_iff]
    have hpre := List.takeWhile_prefix (l := l) (fun b => decide (b ≠ 47))
    have heq : l.takeWhile (fun b => b ≠ 47) = l :=
      hpre.eq_of_length (Nat.le_antisymm hpre.length_le (Nat.le_of_not_lt h))
    have hdrop : l.dropWhile (fun b => b ≠ 47) = [] := by
      have hsplit := List.takeWhile_append_dropWhile (p := fun b => decide (b ≠ 47)) (l := l)
      rw [heq] at hsplit
      exact (List.append_right_eq_self.mp hsplit)
    rw [heq, hdrop, List.append_nil]

/-- The scheme chosen by `encrypt_url` is `https` exactly when the input
starts with `https://`, and `http` in every other case. -/
theorem stripSchemeUrl_fst (url : List Nat) :
    (stripSchemeUrl url).1 =
      if (strBytes "https://").isPrefixOf url then strBytes "https" else strBytes "http" := by
  unfold stripSchemeUrl
  split_ifs <;> rfl

set_option maxRecDepth 400000 in
/-- C1: `encrypt_url` maps each of the three literal spec inputs to exactly
the listed output. -/
theorem encrypt_url_spec_vectors :
    encrypt_url (strBytes "http://219.216.96.4/eams/homeExt.action") =
      strBytes
        "https://webvpn.neu.edu.cn/http/77726476706e69737468656265737421a2a618d275613e1e275ec7f8/eams/homeExt.action"
    ∧ encrypt_url (strBytes "//ipgw.neu.edu.cn") =
      strBytes
        "https://webvpn.neu.edu.cn/http/77726476706e69737468656265737421f9e7468b693e6d45300d8db9d6562d"
    ∧ encrypt_url (strBytes "http://210.30.200.128:8080/system/caslogin.jsp") =
      strBytes
        "https://webvpn.neu.edu.cn/http-8080/77726476706e69737468656265737421a2a611d2746026022e58c7fdca0d/system/caslogin.jsp" := by
  refine ⟨by decide, by decide, by decide⟩

/-- C7: for every input URL, `encrypt_url` produces
`https://webvpn.neu.edu.cn/<scheme>[-<port>]/<token><rest>` where the scheme
is `https` exactly when the input starts with `https://` (otherwise `http`),
only the hostname segment `host` (the slash-free prefix of the URL after
scheme stripping and port removal) is encrypted, and the token is the
32-hex-char encoding of the fixed key `wrdvpnisthebest!` followed by the hex
AES-128-CFB ciphertext of the hostname with that key as both key and IV. -/
theorem encrypt_url_shape (url : List Nat) :
    ∃ host rest,
      (hostPortSplit (stripSchemeUrl url).2).1 = host ++ rest
      ∧ (∀ b ∈ host, b ≠ 47)
      ∧ (rest = [] ∨ ∃ t, rest = 47 :: t)
      ∧ encrypt_url url =
          strBytes "https://webvpn.neu.edu.cn/"
            ++ (if (strBytes "https://").isPrefixOf url then strBytes "https"
                else strBytes "http")
            ++ (match (hostPortSplit (stripSchemeUrl url).2).2 with
                | some p => [45] ++ p
                | none => [])
            ++ [47]
            ++ strBytes "77726476706e69737468656265737421"
            ++ hexEncode (cfbEncrypt AES_KEY AES_KEY host)
            ++ rest := by
  refine ⟨(hostPortSplit (stripSchemeUrl url).2).1.takeWhile (fun b => b ≠ 47),
          (hostPortSplit (stripSchemeUrl url).2).1.dropWhile (fun b => b ≠ 47),
          (List.takeWhile_append_dropWhile _ _).symm, ?_, ?_, ?_⟩
  · intro b hb
    simpa using List.mem_takeWhile_imp hb
  · cases hd : (hostPortSplit (stripSchemeUrl url).2).1.dropWhile (fun b => b ≠ 47) with
    | nil => exact Or.inl rfl
    | cons b t =>
      refine Or.inr ⟨t, ?_⟩
      have hb := dropWhile_head_not _ _ _ _ hd
      have : b = 47 := by simpa using hb
      rw [this]
  · have hkey : hexEncode AES_KEY = strBytes "77726476706e69737468656265737421" := by decide
    simp only [encrypt_url, encryptHost_eq, encrypt, hkey, stripSchemeUrl_fst]
    cases hp2 : (hostPortSplit (stripSchemeUrl url).2).2 with
    | none => simp [List.append_assoc]
    | some p => simp [List.append_assoc]

/-! ## `session.rs`: `find_cookie_value`

`find_cookie_value(raw, name)` does `raw.find(cookie_name)`, then slices
`&raw[i + cookie_name.len() + 1..]` and cuts at the first `;`.  The slice
`&raw[start..]` panics when `start` exceeds `raw.len()` or does not lie on a
UTF-8 character boundary, so the embedding returns `Except Unit _`, with
`Except.error ()` standing for the panic. -/

/-- `str::find(&str)`: byte index of the first occurrence of `name`
(the empty pattern matches at index 0, also in the empty string). -/
def substrFind (name : List Nat) : List Nat → Option Nat
  | [] => match name with
    | [] => some 0
    | _ :: _ => none
  | raw@(_ :: rest) =>
    if name.isPrefixOf raw then some 0
    else (substrFind name rest).map (· + 1)

/-- Whether a byte value is a UTF-8 continuation byte. -/
def isContinuation (b : Nat) : Bool := 128 ≤ b && b < 192

/-- Whether `&raw[i..]` is a valid Rust slice: `i` within bounds and on a
character boundary (the byte at `i`, if any, is not a continuation byte). -/
def sliceFromOk (raw : List Nat) (i : Nat) : Bool :=
  if i = raw.length then true
  else if i < raw.length then !isContinuation (raw.getD i 0)
  else false

/-- `str::find(char)`: byte index of the first occurrence of byte `b`. -/
def byteFind (b : Nat) (l : List Nat) : Option Nat :=
  let i := (l.takeWhile (fun x => x ≠ b)).length
  if i < l.length then some i else none

/-- `session.rs::find_cookie_value` on UTF-8 bytes; `Except.error ()` is the
panic of the slice `&raw[start_index..]`. -/
def find_cookie_value (raw name : List Nat) : Except Unit (Option (List Nat)) :=
  match substrFind name raw with
  | none => .ok none
  | some i =>
    let start_index := i + name.length + 1
    if sliceFromOk raw start_index then
      let sub := raw.drop start_index
      match byteFind 59 sub with
      | none => .ok (some sub)
      | some end_index => .ok (some (sub.take end_index))
    else .error ()

/-- C8 counterexample: the claim also asserts `find_cookie_value("", name)`
is "not found" for *every* name, but with the empty name `str::find` returns
`Some(0)` and the slice `&""[1..]` panics (modelled as `Except.error ()`),
so the result is not "not found". -/
theorem find_cookie_value_empty_name_panics :
    find_cookie_value [] [] = Except.error ()
    ∧ (Except.error () : Except Unit (Option (List Nat))) ≠ Except.ok none :=
  ⟨rfl, fun h => Except.noConfusion h⟩

/-- C8 (amended): the `CASTGC` literal vector holds, and on the empty header
string every *non-empty* name yields "not found". -/
theorem find_cookie_value_extraction :
    find_cookie_value (strBytes "CASTGC=ABC; Language=zh_CN") (strBytes "CASTGC")
      = Except.ok (some (strBytes "ABC"))
    ∧ ∀ name : List Nat, name ≠ [] → find_cookie_value [] name = Except.ok none := by
  refine ⟨by decide, ?_⟩
  intro name h
  match name, h with
  | _ :: _, _ => rfl

theorem find_cookie_value_extraction_witness :
    strBytes "CASTGC" ≠ [] ∧ find_cookie_value [] (strBytes "CASTGC") = Except.ok none :=
  ⟨by decide, find_cookie_value_extraction.2 _ (by decide)⟩

/-- C10 counterexample: when the name occurs as the final characters of the
header with no `=value` following, the computed slice start exceeds the
string length and the code panics — it is not total. -/
theorem find_cookie_value_suffix_panics :
    find_cookie_value (strBytes "abc") (strBytes "abc") = Except.error () := by
  decide

/-- C10 (amended): `find_cookie_value` returns without panicking whenever the
name is absent, or the first occurrence leaves the slice start
`i + name.len() + 1` within bounds and on a character boundary; it panics
exactly when that slice start is out of bounds or off-boundary. -/
theorem find_cookie_value_partial_safety (raw name : List Nat) :
    (substrFind name raw = none → find_cookie_value raw name = Except.ok none)
    ∧ ∀ i, substrFind name raw = some i →
        ((sliceFromOk raw (i + name.length + 1) = true →
            ∃ v, find_cookie_value raw name = Except.ok (some v))
         ∧ (sliceFromOk raw (i + name.length + 1) = false →
            find_cookie_value raw name = Except.error ())) := by
  constructor
  · intro h
    simp [find_cookie_value, h]
  · intro i hi
    constructor
    · intro hslice
      simp only [find_cookie_value, hi, hslice, if_pos]
      cases byteFind 59 (raw.drop (i + name.length + 1)) with
      | none => exact ⟨_, rfl⟩
      | some e => exact ⟨_, rfl⟩
    · intro hslice
      simp [find_cookie_value, hi, hslice]

theorem find_cookie_value_partial_safety_witness :
    substrFind (strBytes "a") (strBytes "a=b; c=d") = some 0
    ∧ ∃ v, find_cookie_value (strBytes "a=b; c=d") (strBytes "a") = Except.ok (some v) :=
  ⟨by decide,
   ((find_cookie_value_partial_safety _ _).2 0 (by decide)).1 (by decide)⟩

/-! ## `status.rs`: the `UserStatus` classifier

`from_response_html` works on the HTML text through the `regex` crate, whose
`.` matches any Unicode scalar except `\n`; HTML is therefore modelled as
`List Char`.  Both regexes have the shape `pre(.+?)post` with literal
`pre`/`post`; under the crate's leftmost-first semantics the match starts at
the leftmost feasible position and the lazy `(.+?)` captures the shortest
non-empty newline-free run followed by `post`. -/

/-- The user-status outcome set of `status.rs`. -/
inductive UserStatus where
  | Active (token username : List Char) : UserStatus
  | NeedReset (token : List Char) : UserStatus
  | Banned (token : List Char) : UserStatus
  | Rejected : UserStatus
  deriving DecidableEq

/-- The lazy capture `(.+?)` followed by the literal `post`, attempted at
the current position: the shortest non-empty run of non-newline characters
immediately followed by `post`. -/
def capFrom (post : List Char) : List Char → Option (List Char)
  | [] => none
  | c :: rest =>
    if c = '\n' then none
    else if post.isPrefixOf rest then some [c]
    else (capFrom post rest).map (c :: ·)

/-- Leftmost-first matching of `pre(.+?)post`: the capture of the match at
the leftmost feasible starting position. -/
def firstCapture (pre post : List Char) : List Char → Option (List Char)
  | [] => none
  | s@(_ :: rest) =>
    if pre.isPrefixOf s then
      match capFrom post (s.drop pre.length) with
      | some cap => some cap
      | none => firstCapture pre post rest
    else firstCapture pre post rest

/-- The first `<title>(.+?)</title>` capture (`TITLE_RE`). -/
def titleOf (html : List Char) : Option (List Char) :=
  firstCapture "<title>".data "</title>".data html

/-- The first `var id_number = "(.+?)"` capture (`USERNAME_RE`), defaulted
to the empty string when absent. -/
def usernameOf (html : List Char) : List Char :=
  (firstCapture "var id_number = \"".data "\"".data html).getD []

/-- `UserStatus::from_response_html`: dispatch on the extracted title. -/
def from_response_html (html : List Char) (token : Option (List Char)) : UserStatus :=
  let username := usernameOf html
  let token := token.getD []
  match titleOf html with
  | some t =>
    if t = "智慧东大--统一身份认证".data then .Rejected
    else if t = "智慧东大".data then .NeedReset token
    else if t = "系统提示".data then .Banned token
    else .Active token username
  | none => .Active token username

/-! ## `error.rs` and `endpoint.rs` -/

/-- `error.rs::Error` (the reqwest transport error carries no data the core
inspects). -/
inductive Error where
  | StatusConflict : Error
  | ParsePageError (url : List Nat) : Error
  | ReqwestError : Error
  deriving DecidableEq

/-- `endpoint.rs::Endpoint`, with URLs as UTF-8 bytes. -/
structure Endpoint where
  login_url : List Nat
  cookie_name : List Nat
  wechat_verify_url : List Nat
  cookie_url : List Nat
  deriving DecidableEq

/-- `ENDPOINT_DIRECT` of `endpoint.rs`. -/
def ENDPOINT_DIRECT : Endpoint where
  login_url := strBytes "https://pass.neu.edu.cn/tpass/login"
  cookie_name := strBytes "CASTGC"
  wechat_verify_url := strBytes "https://pass.neu.edu.cn/tpass/checkQRCodeScan"
  cookie_url := strBytes "https://pass.neu.edu.cn/tpass/"

/-! ## `auth/credential.rs` -/

/-- `auth/credential.rs::Credential`, fields as UTF-8 bytes. -/
structure Credential where
  username : List Nat
  password : List Nat
  deriving DecidableEq

/-- Whether a byte is in the regex character class `[0-9a-zA-Z-]`. -/
def isLtClass (b : Nat) : Bool :=
  (48 ≤ b && b ≤ 57) || (97 ≤ b && b ≤ 122) || (65 ≤ b && b ≤ 90) || b == 45

/-- One attempt of the regex `LT-[0-9a-zA-Z-]+-tpass` at the current
position: after the literal `LT-`, the greedy class run backtracks to the
largest `k ≥ 1` whose next six bytes are the literal `-tpass` (all of
`-tpass` lies in the class, so any such `k` stays within the maximal class
run). -/
def ltMatchAt (s : List Nat) : Option (List Nat) :=
  if (strBytes "LT-").isPrefixOf s then
    let tail := s.drop 3
    let run := tail.takeWhile isLtClass
    match (List.range (run.length + 1)).reverse.find?
        (fun k => decide (1 ≤ k) && (strBytes "-tpass").isPrefixOf (tail.drop k)) with
    | some k => some (strBytes "LT-" ++ tail.take k ++ strBytes "-tpass")
    | none => none
  else none

/-- `RE.find` for `LT-[0-9a-zA-Z-]+-tpass`: the leftmost-first match. -/
def ltFind : List Nat → Option (List Nat)
  | [] => none
  | s@(_ :: rest) =>
    match ltMatchAt s with
    | some m => some m
    | none => ltFind rest

/-- ASCII decimal rendering of a `usize`, as `format!` displays lengths. -/
def natBytes (n : Nat) : List Nat := (Nat.repr n).data.map Char.toNat

/-- The request built by `Credential::build_login_request`: a POST with a
form-urlencoded content type and the portal's concatenated `rsa` body. -/
structure LoginRequest where
  url : List Nat
  contentType : List Nat
  body : List Nat
  deriving DecidableEq

/-- `Credential::build_login_request`. -/
def build_login_request (c : Credential) (url lt : List Nat) : LoginRequest where
  url := url
  contentType := strBytes "application/x-www-form-urlencoded"
  body :=
    strBytes "rsa=" ++ c.username ++ c.password ++ lt
      ++ strBytes "&ul=" ++ natBytes c.username.length
      ++ strBytes "&pl=" ++ natBytes c.password.length
      ++ strBytes "&lt=" ++ lt
      ++ strBytes "&execution=e1s1&_eventId=submit"

/-- The observable outcome of a successful-transport GET: the final resolved
URL after redirects and the response body. -/
structure Response where
  finalUrl : List Nat
  body : List Nat

/-- Trace of one `Credential::execute` run after a transport-successful
initial GET: either the early `Err(StatusConflict)` return (no POST, no
status check), the early `Err(ParsePageError)` return (no POST), or the
POST of the built login request followed by returning the result of
`session._check_status(endpoint)` (abstracted as `σ`). -/
inductive CredentialOutcome (σ : Type) where
  | conflict : CredentialOutcome σ
  | parseError (url : List Nat) : CredentialOutcome σ
  | posted (req : LoginRequest) (result : σ) : CredentialOutcome σ
  deriving DecidableEq

/-- `Credential::execute` (the `AuthMethod` impl in `auth/credential.rs`),
given the pre-login response `pre` of the initial GET and the abstract
result `check_status` that `session._check_status(endpoint)` would return.
The POST's own response body is read and discarded by the code. -/
def credential_execute {σ : Type} (c : Credential) (endpoint : Endpoint)
    (pre : Response) (check_status : σ) : CredentialOutcome σ :=
  let pre_final_url := pre.finalUrl
  if endpoint.login_url.isPrefixOf pre_final_url = false then
    .conflict
  else
    match ltFind pre.body with
    | none => .parseError pre_final_url
    | some lt => .posted (build_login_request c endpoint.login_url lt) check_status

/-! ## `auth/token.rs` and the display/debug forms -/

/-- `auth/token.rs::Token`. -/
structure Token where
  value : List Nat
  deriving DecidableEq

/-- `Display for Credential`: `credential#<username>`. -/
def Credential.display (c : Credential) : List Nat :=
  strBytes "credential#" ++ c.username

/-- `Display for Token`: the constant string `token`. -/
def Token.display (_ : Token) : List Nat :=
  strBytes "token"

/-- `str`'s `Debug` escaping for one byte, as `escape_debug` renders
printable ASCII content (quotes and backslashes escaped; exact on the
alphanumeric strings used below). -/
def escDebugByte (b : Nat) : List Nat :=
  if b = 34 then [92, 34]
  else if b = 92 then [92, 92]
  else if b = 10 then [92, 110]
  else if b = 13 then [92, 114]
  else if b = 9 then [92, 116]
  else [b]

/-- `Debug` form of a Rust string: quoted and escaped. -/
def rustStrDebug (s : List Nat) : List Nat :=
  [34] ++ s.flatMap escDebugByte ++ [34]

/-- The `#[derive(Debug)]` form of `Credential`:
`Credential \x7b username: "...", password: "..." \x7d`. -/
def Credential.debugFmt (c : Credential) : List Nat :=
  strBytes "Credential \x7b username: " ++ rustStrDebug c.username
    ++ strBytes ", password: " ++ rustStrDebug c.password ++ strBytes " \x7d"

/-- The `#[derive(Debug)]` form of `Token`: `Token("...")`. -/
def Token.debugFmt (t : Token) : List Nat :=
  strBytes "Token(" ++ rustStrDebug t.value ++ strBytes ")"

/-! ## `auth/wechat.rs` -/

/-- Trace of one `Wechat::execute` run after a transport-successful GET of
the verify URL with body `body`: an empty body returns `Ok(Rejected)`
immediately (no status-check request); a non-empty body returns the result
of `session._check_status(endpoint)`. -/
inductive WechatOutcome where
  | immediate (result : Except Error UserStatus) : WechatOutcome
  | checked (result : Except Error UserStatus) : WechatOutcome
  deriving DecidableEq

/-- `Wechat::execute` (the `AuthMethod` impl in `auth/wechat.rs`), given the
verify-response body and the abstract `session._check_status(endpoint)`
result. -/
def wechat_execute (body : List Nat) (check_status : Except Error UserStatus) :
    WechatOutcome :=
  match body.length with
  | 0 => .immediate (.ok .Rejected)
  | _ + 1 => .checked check_status

/-- The 16-entry hex table `HEX` of `generate_uuid` (the characters
`0`-`9` and `a`-`f`, in order). -/
def UUID_HEX : List Char := "0123456789abcdef".data

/-- `generate_uuid` of `auth/wechat.rs`.  The float expression
`(d + rand_gen.gen::<f64>() * 16f64) as usize` at loop index `i` is
abstracted by the oracle `cast i`: Rust's saturating float-to-usize cast
yields *some* natural number, and every theorem below quantifies over all
oracles, covering every timestamp and random sequence.  Positions 8, 13, 18
and 23 get `-`; every other position gets `HEX[r]` with `r = cast i % 16`. -/
def generate_uuid (cast : Nat → Nat) : List Char :=
  (List.range 36).map fun i =>
    if i = 8 ∨ i = 13 ∨ i = 18 ∨ i = 23 then '-'
    else UUID_HEX.getD (cast i % 16) ' '

/-! ## Theorems about the classifier, the auth methods and the secrets -/

/-- C2: `from_response_html` is a pure function dispatching on the first
`<title>` capture: the CAS login title yields `Rejected`, `智慧东大` yields
`NeedReset`, `系统提示` yields `Banned`, and any other or missing title
yields `Active` with the first `var id_number` capture (or the empty string)
as username; the token defaults to the empty string when not supplied. -/
theorem from_response_html_dispatch (html : List Char) (token : Option (List Char)) :
    (titleOf html = some "智慧东大--统一身份认证".data →
        from_response_html html token = .Rejected)
    ∧ (titleOf html = some "智慧东大".data →
        from_response_html html token = .NeedReset (token.getD []))
    ∧ (titleOf html = some "系统提示".data →
        from_response_html html token = .Banned (token.getD []))
    ∧ (∀ t, titleOf html = some t →
        t ≠ "智慧东大--统一身份认证".data → t ≠ "智慧东大".data → t ≠ "系统提示".data →
        from_response_html html token = .Active (token.getD []) (usernameOf html))
    ∧ (titleOf html = none →
        from_response_html html token = .Active (token.getD []) (usernameOf html)) := by
  refine ⟨?_, ?_, ?_, ?_, ?_⟩
  · intro h
    simp [from_response_html, h]
  · intro h
    simp [from_response_html, h]
  · intro h
    simp [from_response_html, h]
  · intro t h ht1 ht2 ht3
    simp only [from_response_html, h]
    rw [if_neg ht1, if_neg ht2, if_neg ht3]
  · intro h
    simp only [from_response_html, h]

theorem from_response_html_dispatch_witness :
    titleOf "<html><title>系统提示</title></html>".data = some "系统提示".data
    ∧ from_response_html "<html><title>系统提示</title></html>".data (some "tk".data)
        = UserStatus.Banned "tk".data :=
  ⟨by decide, (from_response_html_dispatch _ _).2.2.1 (by decide)⟩

/-- C3 counterexample: the derived `Debug` form of a `Credential` contains
the password verbatim, and the derived `Debug` form of a `Token` contains
the raw token value verbatim, contradicting the claim for the debug form. -/
theorem debug_forms_expose_secrets :
    List.IsInfix (strBytes "secret")
        (Credential.debugFmt ⟨strBytes "user", strBytes "secret"⟩)
    ∧ List.IsInfix (strBytes "tokval") (Token.debugFmt ⟨strBytes "tokval"⟩) := by
  refine ⟨by decide, by decide⟩

/-- C3 (amended): the `Display` forms never depend on the secret field — a
`Credential`'s display form is determined by the username alone, and a
`Token`'s display form is the constant `token` — so they never expose it;
the derived `Debug` forms, however, do contain the secret fields. -/
theorem display_forms_independent_of_secrets (u p₁ p₂ t₁ t₂ : List Nat) :
    Credential.display ⟨u, p₁⟩ = Credential.display ⟨u, p₂⟩
    ∧ Token.display ⟨t₁⟩ = Token.display ⟨t₂⟩ :=
  ⟨rfl, rfl⟩

/-- C4: after a transport-successful GET whose final URL passes the
redirect check, `Credential::execute` fails with `ParsePageError` carrying
the final pre-login URL when no `LT-…-tpass` token is found in the body,
and otherwise POSTs the form-urlencoded login request with the exact
`rsa=…&ul=…&pl=…&lt=…&execution=e1s1&_eventId=submit` body (with `lt` the
first regex match) and returns the result of the shared status check. -/
theorem credential_execute_login_form {σ : Type} (c : Credential) (endpoint : Endpoint)
    (pre : Response) (check_status : σ)
    (hred : endpoint.login_url.isPrefixOf pre.finalUrl = true) :
    (ltFind pre.body = none →
        credential_execute c endpoint pre check_status = .parseError pre.finalUrl)
    ∧ ∀ lt, ltFind pre.body = some lt →
        credential_execute c endpoint pre check_status =
          .posted
            { url := endpoint.login_url
              contentType := strBytes "application/x-www-form-urlencoded"
              body :=
                strBytes "rsa=" ++ c.username ++ c.password ++ lt
                  ++ strBytes "&ul=" ++ natBytes c.username.length
                  ++ strBytes "&pl=" ++ natBytes c.password.length
                  ++ strBytes "&lt=" ++ lt
                  ++ strBytes "&execution=e1s1&_eventId=submit" }
            check_status := by
  constructor
  · intro h
    simp [credential_execute, hred, h]
  · intro lt h
    simp [credential_execute, build_login_request, hred, h]

theorem credential_execute_login_form_witness :
    ENDPOINT_DIRECT.login_url.isPrefixOf (strBytes "https://pass.neu.edu.cn/tpass/login") = true
    ∧ ltFind (strBytes "<input name=lt value=LT-123abc-tpass />")
        = some (strBytes "LT-123abc-tpass")
    ∧ credential_execute ⟨strBytes "20180000", strBytes "pw"⟩ ENDPOINT_DIRECT
        ⟨strBytes "https://pass.neu.edu.cn/tpass/login",
         strBytes "<input name=lt value=LT-123abc-tpass />"⟩ (0 : Nat)
      = .posted
          { url := ENDPOINT_DIRECT.login_url
            contentType := strBytes "application/x-www-form-urlencoded"
            body :=
              strBytes "rsa=" ++ strBytes "20180000" ++ strBytes "pw"
                ++ strBytes "LT-123abc-tpass"
                ++ strBytes "&ul=" ++ natBytes (strBytes "20180000").length
                ++ strBytes "&pl=" ++ natBytes (strBytes "pw").length
                ++ strBytes "&lt=" ++ strBytes "LT-123abc-tpass"
                ++ strBytes "&execution=e1s1&_eventId=submit" }
          0 :=
  ⟨by decide, by decide,
   (credential_execute_login_form _ _ _ _ (by decide)).2 _ (by decide)⟩

/-- C5: after a transport-successful GET, `Credential::execute` fails with
`StatusConflict` — before any form submission or status check, as the
`conflict` trace carries neither — exactly when the final resolved URL does
not start with `endpoint.login_url`. -/
theorem credential_execute_redirect_guard {σ : Type} (c : Credential) (endpoint : Endpoint)
    (pre : Response) (check_status : σ) :
    (endpoint.login_url.isPrefixOf pre.finalUrl = false →
        credential_execute c endpoint pre check_status = .conflict)
    ∧ (endpoint.login_url.isPrefixOf pre.finalUrl = true →
        credential_execute c endpoint pre check_status ≠ .conflict) := by
  constructor
  · intro h
    simp [credential_execute, h]
  · intro h
    simp only [credential_execute, h]
    cases hl : ltFind pre.body <;> simp [hl]

theorem credential_execute_redirect_guard_witness :
    ENDPOINT_DIRECT.login_url.isPrefixOf (strBytes "https://portal.neu.edu.cn/") = false
    ∧ credential_execute ⟨strBytes "u", strBytes "p"⟩ ENDPOINT_DIRECT
        ⟨strBytes "https://portal.neu.edu.cn/", []⟩ (0 : Nat) = .conflict :=
  ⟨by decide, (credential_execute_redirect_guard _ _ _ _).1 (by decide)⟩

/-- C6: after a transport-successful verify GET, `Wechat::execute` returns
`Ok(Rejected)` immediately — without the status-check request, as the
`immediate` trace records — when the body is empty, and returns exactly the
shared status-check result when the body is non-empty. -/
theorem wechat_execute_polling (body : List Nat) (cs : Except Error UserStatus) :
    (body.length = 0 → wechat_execute body cs = .immediate (.ok .Rejected))
    ∧ (body.length ≠ 0 → wechat_execute body cs = .checked cs) := by
  constructor
  · intro h
    simp [wechat_execute, h]
  · intro h
    cases hb : body with
    | nil => exact absurd (by simp [hb]) h
    | cons x xs => simp [wechat_execute, hb]

theorem wechat_execute_polling_witness :
    ([] : List Nat).length = 0
    ∧ wechat_execute [] (Except.ok (.Active [] [])) = .immediate (.ok .Rejected) :=
  ⟨rfl, (wechat_execute_polling _ _).1 rfl⟩

/-- C9: for every oracle of float-cast values (covering every timestamp and
random sequence), the generated uuid has length 36, `-` at exactly positions
8, 13, 18 and 23, a lowercase hex digit everywhere else, and the computed
index into the 16-entry hex table is always in range. -/
theorem generate_uuid_shape (cast : Nat → Nat) :
    (generate_uuid cast).length = 36
    ∧ (∀ i, i = 8 ∨ i = 13 ∨ i = 18 ∨ i = 23 → (generate_uuid cast).getD i ' ' = '-')
    ∧ (∀ i, i < 36 → ¬(i = 8 ∨ i = 13 ∨ i = 18 ∨ i = 23) →
        (generate_uuid cast).getD i ' ' ∈ UUID_HEX)
    ∧ (∀ i, cast i % 16 < UUID_HEX.length) := by
  have hget : ∀ i, i < 36 → (generate_uuid cast).getD i ' ' =
      (if i = 8 ∨ i = 13 ∨ i = 18 ∨ i = 23 then '-' else UUID_HEX.getD (cast i % 16) ' ') := by
    intro i hi
    rw [generate_uuid, List.getD_eq_getD_get?, List.get?_map, List.get?_range hi]
    rfl
  refine ⟨by simp [generate_uuid], ?_, ?_, ?_⟩
  · intro i hi
    have h36 : i < 36 := by omega
    rw [hget i h36, if_pos hi]
  · intro i hlt hneg
    rw [hget i hlt, if_neg hneg]
    have hr : cast i % 16 < UUID_HEX.length := Nat.mod_lt _ (by decide)
    rw [List.getD_eq_getElem UUID_HEX ' ' hr]
    exact List.getElem_mem hr
  · intro i
    exact Nat.mod_lt _ (by decide)

theorem generate_uuid_shape_witness :
    (generate_uuid (fun _ => 0)).length = 36
    ∧ (generate_uuid (fun _ => 0)).getD 8 ' ' = '-'
    ∧ (generate_uuid (fun _ => 0)).getD 0 ' ' ∈ UUID_HEX :=
  ⟨(generate_uuid_shape (fun _ => 0)).1,
   (generate_uuid_shape (fun _ => 0)).2.1 8 (Or.inl rfl),
   (generate_uuid_shape (fun _ => 0)).2.2.1 0 (by decide) (by decide)⟩

end Neust
